import Mathlib

/-!
Verification of the OptionPricing repository core: the Black-Scholes pricing
function (OptionPricingDash.py), and the ATM-strike selection, expiry
normalization and mispricing computations duplicated across
atm_option_analysis.py and live_data.py.

Reals in the source (Python/numpy floats) are modelled as exact reals; the
scipy standard-normal pdf/cdf are modelled by their defining formula and
integral.  Fallible paths (the validation gate returning None, the
ValueError on a bad option type caught by the function's own handler, and
the ValueError of min() on an empty sequence recovered by the enclosing
handler) are modelled with Option/Except values.
-/

open MeasureTheory Set

noncomputable section

/-- Standard normal probability density function, the model of scipy's
norm.pdf used by the source. -/
def normPdf (x : ℝ) : ℝ := (Real.sqrt (2 * Real.pi))⁻¹ * Real.exp (-x ^ 2 / 2)

/-- Standard normal cumulative distribution function, the model of scipy's
norm.cdf used by the source. -/
def normCdf (x : ℝ) : ℝ := ∫ t in Iic x, normPdf t

/-- Result record of one pricing call, the six values the source returns in
its dict (price and five Greeks). -/
structure Greeks where
  price : ℝ
  delta : ℝ
  gamma : ℝ
  vega : ℝ
  theta : ℝ
  rho : ℝ

/-- Shallow embedding of black_scholes from OptionPricingDash.py.  The
validation gate (line 11) runs first and returns None; then T and vol are
clamped (lines 15-16); d1, d2, the shared Greeks and the side-specific
price/delta/theta/rho mirror lines 20-63.  An option_type other than
"call"/"put" raises ValueError, caught by the function's own except handler
which returns None (lines 64-69); that path is the final none. -/
def black_scholes (S K r T q vol : ℝ) (option_type : String) : Option Greeks :=
  if S ≤ 0 ∨ K ≤ 0 ∨ T ≤ 0 ∨ vol ≤ 0 then none
  else
    let T := max T (1 / 365)
    let vol := max vol 0.001
    let d1 := (Real.log (S / K) + (r - q + 0.5 * vol ^ 2) * T) / (vol * Real.sqrt T)
    let d2 := d1 - vol * Real.sqrt T
    let gamma := normPdf d1 * Real.exp (-q * T) / (S * vol * Real.sqrt T)
    let vega := S * normPdf d1 * Real.sqrt T * Real.exp (-q * T) / 100
    if option_type = "call" then
      some
        { price := S * Real.exp (-q * T) * normCdf d1 - K * Real.exp (-r * T) * normCdf d2
          delta := normCdf d1 * Real.exp (-q * T)
          gamma := gamma
          vega := vega
          theta := ((-(S * normPdf d1 * vol * Real.exp (-q * T))) / (2 * Real.sqrt T)
              - r * K * Real.exp (-r * T) * normCdf d2
              + q * S * Real.exp (-q * T) * normCdf d1) / 365
          rho := K * T * Real.exp (-r * T) * normCdf d2 / 100 }
    else if option_type = "put" then
      some
        { price := K * Real.exp (-r * T) * normCdf (-d2) - S * Real.exp (-q * T) * normCdf (-d1)
          delta := Real.exp (-q * T) * (normCdf d1 - 1)
          gamma := gamma
          vega := vega
          theta := ((-(S * normPdf d1 * vol * Real.exp (-q * T))) / (2 * Real.sqrt T)
              + r * K * Real.exp (-r * T) * normCdf (-d2)
              - q * S * Real.exp (-q * T) * normCdf (-d1)) / 365
          rho := -(K * T * Real.exp (-r * T) * normCdf (-d2)) / 100 }
    else
      none

/-- Mispricing computation exactly as both call sites write it
(atm_option_analysis.py line 109, live_data.py line 92):
((market_price - bsm_price) / bsm_price) * 100, with no guard on a zero
model price. -/
def mispricing (market_price bsm_price : ℝ) : ℝ :=
  (market_price - bsm_price) / bsm_price * 100

/-- Result of the mispricing step as the callers run it: the division is
performed unconditionally whenever a model price is available, so a value is
always produced (numpy float division by zero yields a non-finite value,
not an exception). -/
def mispricingRun (bsm_price market_price : ℝ) : Option ℝ :=
  some (mispricing market_price bsm_price)

/-- Mispricing evaluator following the spec's words (section 4.4): returns
Undefined (here none) when the model price is exactly 0, never dividing in
that case; otherwise the relative mispricing percentage.  Stated only to be
compared against the source's mispricing computation. -/
def evaluateSpec (modelPrice marketPrice : ℝ) : Option ℝ :=
  if modelPrice = 0 then none
  else some ((marketPrice - modelPrice) / modelPrice * 100)

/-- Shallow embedding of the time-to-expiry normalization duplicated at
atm_option_analysis.py lines 59-66 and live_data.py lines 52-58.  The input
is the whole-day difference (expiry_date - now).days; the Bool is the
warning branch (st.warning / print) taken when the difference is ≤ 0. -/
def normalizeExpiry (days_to_expiry : Int) : ℝ × Bool :=
  if days_to_expiry ≤ 0 then (1 / 365, true)
  else ((days_to_expiry : ℝ) / 365, false)

/-- Comparison step of Python's min(strikes, key=lambda x: abs(x - spot_price)):
the running best is replaced only when the new key is strictly smaller, so
ties keep the earlier element. -/
def minKeyStep (spot_price best y : ℝ) : ℝ :=
  if |y - spot_price| < |best - spot_price| then y else best

/-- Error value for ATM selection on an empty strike sequence: Python's
min() raises ValueError there, which the enclosing handler of each script
recovers; modelled as an explicit error. -/
inductive AtmError where
  | EmptyInput
deriving DecidableEq

/-- Shallow embedding of the ATM strike selection duplicated at
atm_option_analysis.py line 47 and live_data.py line 42:
min(strikes, key=lambda x: abs(x - spot_price)), a left-to-right scan. -/
def atm_strike (strikes : List ℝ) (spot_price : ℝ) : Except AtmError ℝ :=
  match strikes with
  | [] => Except.error AtmError.EmptyInput
  | x :: xs => Except.ok (xs.foldl (minKeyStep spot_price) x)

/-- Call price formula as claim C1 states it, with every occurrence of the
time and volatility taken after clamping (T to at least 1/365 and vol to at
least 0.001).  Stated only to be compared with the source embedding. -/
def specCallPrice (S K r T q vol : ℝ) : ℝ :=
  let T := max T (1 / 365)
  let vol := max vol 0.001
  let d1 := (Real.log (S / K) + (r - q + 0.5 * vol ^ 2) * T) / (vol * Real.sqrt T)
  let d2 := d1 - vol * Real.sqrt T
  S * Real.exp (-q * T) * normCdf d1 - K * Real.exp (-r * T) * normCdf d2

/-- Call delta formula as claim C1 states it, with clamped inputs.  Stated
only to be compared with the source embedding. -/
def specCallDelta (S K r T q vol : ℝ) : ℝ :=
  let T := max T (1 / 365)
  let vol := max vol 0.001
  let d1 := (Real.log (S / K) + (r - q + 0.5 * vol ^ 2) * T) / (vol * Real.sqrt T)
  normCdf d1 * Real.exp (-q * T)

/-- Abbreviation for the local d1 of black_scholes after the clamps, used to
state the unfolding lemmas below. -/
def bsD1 (S K r T q vol : ℝ) : ℝ :=
  (Real.log (S / K) + (r - q + 0.5 * max vol 0.001 ^ 2) * max T (1 / 365)) /
    (max vol 0.001 * Real.sqrt (max T (1 / 365)))

/-- Abbreviation for the local d2 of black_scholes after the clamps. -/
def bsD2 (S K r T q vol : ℝ) : ℝ :=
  bsD1 S K r T q vol - max vol 0.001 * Real.sqrt (max T (1 / 365))

end

/-! Properties of the standard normal density and distribution function. -/

theorem normPdf_nonneg (x : ℝ) : 0 ≤ normPdf x :=
  mul_nonneg (inv_nonneg.mpr (Real.sqrt_nonneg _)) (Real.exp_pos _).le

theorem normPdf_even (x : ℝ) : normPdf (-x) = normPdf x := by
  simp [normPdf, neg_sq]

theorem normPdf_eq (x : ℝ) :
    normPdf x = (Real.sqrt (2 * Real.pi))⁻¹ * Real.exp (-(1 / 2) * x ^ 2) := by
  rw [normPdf, show -x ^ 2 / 2 = -(1 / 2) * x ^ 2 by ring]

theorem integrable_normPdf : Integrable normPdf := by
  have h := (integrable_exp_neg_mul_sq (by norm_num : (0 : ℝ) < 1 / 2)).const_mul
    (Real.sqrt (2 * Real.pi))⁻¹
  exact h.congr (Filter.Eventually.of_forall fun x => (normPdf_eq x).symm)

theorem integral_normPdf : ∫ x, normPdf x = 1 := by
  have h : ∫ x, normPdf x
      = (Real.sqrt (2 * Real.pi))⁻¹ * ∫ x : ℝ, Real.exp (-(1 / 2) * x ^ 2) := by
    rw [← integral_mul_left]
    exact integral_congr_ae (Filter.Eventually.of_forall fun x => normPdf_eq x)
  rw [h, integral_gaussian, show Real.pi / (1 / 2) = 2 * Real.pi by ring]
  exact inv_mul_cancel₀ (Real.sqrt_ne_zero'.mpr (by positivity))

theorem normCdf_nonneg (x : ℝ) : 0 ≤ normCdf x :=
  setIntegral_nonneg measurableSet_Iic fun t _ => normPdf_nonneg t

theorem normCdf_neg_eq (x : ℝ) : normCdf (-x) = ∫ t in Ioi x, normPdf t := by
  rw [normCdf, ← integral_comp_neg_Ioi]
  exact setIntegral_congr_fun measurableSet_Ioi fun t _ => normPdf_even t

theorem normCdf_add_neg (x : ℝ) : normCdf x + normCdf (-x) = 1 := by
  rw [normCdf, normCdf_neg_eq, ← compl_Iic,
    integral_add_compl measurableSet_Iic integrable_normPdf]
  exact integral_normPdf

theorem normCdf_le_one (x : ℝ) : normCdf x ≤ 1 := by
  have h := normCdf_add_neg x
  have h2 := normCdf_nonneg (-x)
  linarith

/-! Unfolding lemmas for black_scholes past the validation gate. -/

theorem black_scholes_call_eq (S K r T q vol : ℝ)
    (h : ¬(S ≤ 0 ∨ K ≤ 0 ∨ T ≤ 0 ∨ vol ≤ 0)) :
    black_scholes S K r T q vol "call" =
      some
        { price := S * Real.exp (-q * max T (1 / 365)) * normCdf (bsD1 S K r T q vol)
            - K * Real.exp (-r * max T (1 / 365)) * normCdf (bsD2 S K r T q vol)
          delta := normCdf (bsD1 S K r T q vol) * Real.exp (-q * max T (1 / 365))
          gamma := normPdf (bsD1 S K r T q vol) * Real.exp (-q * max T (1 / 365)) /
              (S * max vol 0.001 * Real.sqrt (max T (1 / 365)))
          vega := S * normPdf (bsD1 S K r T q vol) * Real.sqrt (max T (1 / 365)) *
              Real.exp (-q * max T (1 / 365)) / 100
          theta := ((-(S * normPdf (bsD1 S K r T q vol) * max vol 0.001 *
                Real.exp (-q * max T (1 / 365)))) / (2 * Real.sqrt (max T (1 / 365)))
              - r * K * Real.exp (-r * max T (1 / 365)) * normCdf (bsD2 S K r T q vol)
              + q * S * Real.exp (-q * max T (1 / 365)) * normCdf (bsD1 S K r T q vol)) / 365
          rho := K * max T (1 / 365) * Real.exp (-r * max T (1 / 365)) *
              normCdf (bsD2 S K r T q vol) / 100 } := by
  unfold black_scholes
  rw [if_neg h]
  rfl

theorem black_scholes_put_eq (S K r T q vol : ℝ)
    (h : ¬(S ≤ 0 ∨ K ≤ 0 ∨ T ≤ 0 ∨ vol ≤ 0)) :
    black_scholes S K r T q vol "put" =
      some
        { price := K * Real.exp (-r * max T (1 / 365)) * normCdf (-bsD2 S K r T q vol)
            - S * Real.exp (-q * max T (1 / 365)) * normCdf (-bsD1 S K r T q vol)
          delta := Real.exp (-q * max T (1 / 365)) * (normCdf (bsD1 S K r T q vol) - 1)
          gamma := normPdf (bsD1 S K r T q vol) * Real.exp (-q * max T (1 / 365)) /
              (S * max vol 0.001 * Real.sqrt (max T (1 / 365)))
          vega := S * normPdf (bsD1 S K r T q vol) * Real.sqrt (max T (1 / 365)) *
              Real.exp (-q * max T (1 / 365)) / 100
          theta := ((-(S * normPdf (bsD1 S K r T q vol) * max vol 0.001 *
                Real.exp (-q * max T (1 / 365)))) / (2 * Real.sqrt (max T (1 / 365)))
              + r * K * Real.exp (-r * max T (1 / 365)) * normCdf (-bsD2 S K r T q vol)
              - q * S * Real.exp (-q * max T (1 / 365)) * normCdf (-bsD1 S K r T q vol)) / 365
          rho := -(K * max T (1 / 365) * Real.exp (-r * max T (1 / 365)) *
              normCdf (-bsD2 S K r T q vol)) / 100 } := by
  unfold black_scholes
  rw [if_neg h]
  rfl

/-! Claim theorems for the pricing engine. -/

/-- C1: for spot, strike, timeToExpiry and volatility all positive, calling
the pricing function with the call side returns a result whose price is
S·e^(-qT)·Φ(d1) - K·e^(-rT)·Φ(d2) and whose delta is Φ(d1)·e^(-qT), where
d1, d2 and all occurrences of T and vol are the inputs after clamping T to
at least 1/365 and vol to at least 0.001. -/
theorem black_scholes_call_formula (S K r T q vol : ℝ)
    (hS : 0 < S) (hK : 0 < K) (hT : 0 < T) (hv : 0 < vol) :
    ∃ g, black_scholes S K r T q vol "call" = some g ∧
      g.price = specCallPrice S K r T q vol ∧
      g.delta = specCallDelta S K r T q vol := by
  have hgate : ¬(S ≤ 0 ∨ K ≤ 0 ∨ T ≤ 0 ∨ vol ≤ 0) := by
    push_neg
    exact ⟨hS, hK, hT, hv⟩
  exact ⟨_, black_scholes_call_eq S K r T q vol hgate, rfl, rfl⟩

theorem black_scholes_call_formula_witness :
    (0 : ℝ) < 1 ∧
      ∃ g, black_scholes 1 1 0 1 0 1 "call" = some g ∧
        g.price = specCallPrice 1 1 0 1 0 1 ∧
        g.delta = specCallDelta 1 1 0 1 0 1 :=
  ⟨by norm_num, black_scholes_call_formula 1 1 0 1 0 1 (by norm_num) (by norm_num)
    (by norm_num) (by norm_num)⟩

/-- C2: whenever spot ≤ 0, or strike ≤ 0, or timeToExpiry ≤ 0, or
volatility ≤ 0 (tested before any clamping), the pricing function returns
the rejection value none for both the call and the put side, before any
Black-Scholes computation. -/
theorem black_scholes_rejects_nonpositive (S K r T q vol : ℝ)
    (h : S ≤ 0 ∨ K ≤ 0 ∨ T ≤ 0 ∨ vol ≤ 0) :
    black_scholes S K r T q vol "call" = none ∧
      black_scholes S K r T q vol "put" = none := by
  unfold black_scholes
  rw [if_pos h, if_pos h]
  exact ⟨rfl, rfl⟩

theorem black_scholes_rejects_nonpositive_witness :
    ((-5 : ℝ) ≤ 0 ∨ (100 : ℝ) ≤ 0 ∨ (1 : ℝ) ≤ 0 ∨ (1 : ℝ) ≤ 0) ∧
      (black_scholes (-5) 100 0.04 1 0.01 1 "call" = none ∧
        black_scholes (-5) 100 0.04 1 0.01 1 "put" = none) :=
  ⟨Or.inl (by norm_num),
    black_scholes_rejects_nonpositive (-5) 100 0.04 1 0.01 1 (Or.inl (by norm_num))⟩

/-- C4: for all positive inputs the call and put prices on the same inputs
satisfy put-call parity, callPrice - putPrice = S·e^(-qT) - K·e^(-rT), with
T taken after clamping; exact over the real-number model. -/
theorem black_scholes_put_call_parity (S K r T q vol : ℝ)
    (hS : 0 < S) (hK : 0 < K) (hT : 0 < T) (hv : 0 < vol) :
    ∃ gc gp, black_scholes S K r T q vol "call" = some gc ∧
      black_scholes S K r T q vol "put" = some gp ∧
      gc.price - gp.price
        = S * Real.exp (-q * max T (1 / 365)) - K * Real.exp (-r * max T (1 / 365)) := by
  have hgate : ¬(S ≤ 0 ∨ K ≤ 0 ∨ T ≤ 0 ∨ vol ≤ 0) := by
    push_neg
    exact ⟨hS, hK, hT, hv⟩
  refine ⟨_, _, black_scholes_call_eq S K r T q vol hgate,
    black_scholes_put_eq S K r T q vol hgate, ?_⟩
  have h1 := normCdf_add_neg (bsD1 S K r T q vol)
  have h2 := normCdf_add_neg (bsD2 S K r T q vol)
  dsimp only
  linear_combination S * Real.exp (-q * max T (1 / 365)) * h1
    - K * Real.exp (-r * max T (1 / 365)) * h2

theorem black_scholes_put_call_parity_witness :
    (0 : ℝ) < 1 ∧
      ∃ gc gp, black_scholes 1 1 0 1 0 1 "call" = some gc ∧
        black_scholes 1 1 0 1 0 1 "put" = some gp ∧
        gc.price - gp.price
          = 1 * Real.exp (-0 * max 1 (1 / 365)) - 1 * Real.exp (-0 * max 1 (1 / 365)) :=
  ⟨by norm_num, black_scholes_put_call_parity 1 1 0 1 0 1 (by norm_num) (by norm_num)
    (by norm_num) (by norm_num)⟩

/-- C9: for all positive inputs the returned call delta lies in
[0, e^(-qT)] and the returned put delta lies in [-e^(-qT), 0], with T taken
after clamping. -/
theorem black_scholes_delta_bounds (S K r T q vol : ℝ)
    (hS : 0 < S) (hK : 0 < K) (hT : 0 < T) (hv : 0 < vol) :
    ∃ gc gp, black_scholes S K r T q vol "call" = some gc ∧
      black_scholes S K r T q vol "put" = some gp ∧
      0 ≤ gc.delta ∧ gc.delta ≤ Real.exp (-q * max T (1 / 365)) ∧
      -Real.exp (-q * max T (1 / 365)) ≤ gp.delta ∧ gp.delta ≤ 0 := by
  have hgate : ¬(S ≤ 0 ∨ K ≤ 0 ∨ T ≤ 0 ∨ vol ≤ 0) := by
    push_neg
    exact ⟨hS, hK, hT, hv⟩
  refine ⟨_, _, black_scholes_call_eq S K r T q vol hgate,
    black_scholes_put_eq S K r T q vol hgate, ?_, ?_, ?_, ?_⟩ <;> dsimp only
  · exact mul_nonneg (normCdf_nonneg _) (Real.exp_pos _).le
  · exact mul_le_of_le_one_left (Real.exp_pos _).le (normCdf_le_one _)
  · nlinarith [Real.exp_pos (-q * max T (1 / 365)), normCdf_nonneg (bsD1 S K r T q vol),
      mul_nonneg (Real.exp_pos (-q * max T (1 / 365))).le (normCdf_nonneg (bsD1 S K r T q vol))]
  · nlinarith [Real.exp_pos (-q * max T (1 / 365)), normCdf_le_one (bsD1 S K r T q vol)]

theorem black_scholes_delta_bounds_witness :
    (0 : ℝ) < 1 ∧
      ∃ gc gp, black_scholes 1 1 0 1 0 1 "call" = some gc ∧
        black_scholes 1 1 0 1 0 1 "put" = some gp ∧
        0 ≤ gc.delta ∧ gc.delta ≤ Real.exp (-0 * max 1 (1 / 365)) ∧
        -Real.exp (-0 * max 1 (1 / 365)) ≤ gp.delta ∧ gp.delta ≤ 0 :=
  ⟨by norm_num, black_scholes_delta_bounds 1 1 0 1 0 1 (by norm_num) (by norm_num)
    (by norm_num) (by norm_num)⟩

/-- C5: the validation gate runs before the floors.  With positive spot and
strike, an input with 0 < T ≤ 1/365 is not rejected and yields exactly the
result obtained at T = 1/365; an input with 0 < vol ≤ 0.001 yields exactly
the result obtained at vol = 0.001; and on the call/put sides a fully
positive input is never rejected. -/
theorem black_scholes_gate_before_floors (S K r T q vol : ℝ) (ot : String)
    (hS : 0 < S) (hK : 0 < K) :
    (0 < T → T ≤ 1 / 365 → 0 < vol →
      black_scholes S K r T q vol ot = black_scholes S K r (1 / 365) q vol ot) ∧
    (0 < vol → vol ≤ 0.001 → 0 < T →
      black_scholes S K r T q vol ot = black_scholes S K r T q 0.001 ot) ∧
    (0 < T → 0 < vol →
      (black_scholes S K r T q vol "call").isSome ∧
        (black_scholes S K r T q vol "put").isSome) := by
  refine ⟨?_, ?_, ?_⟩
  · intro hT hT2 hv
    have hg1 : ¬(S ≤ 0 ∨ K ≤ 0 ∨ T ≤ 0 ∨ vol ≤ 0) := by
      push_neg
      exact ⟨hS, hK, hT, hv⟩
    have hg2 : ¬(S ≤ 0 ∨ K ≤ 0 ∨ (1 / 365 : ℝ) ≤ 0 ∨ vol ≤ 0) := by
      push_neg
      exact ⟨hS, hK, by norm_num, hv⟩
    have hmax : max T (1 / 365) = max (1 / 365 : ℝ) (1 / 365) := by
      rw [max_eq_right hT2, max_self]
    unfold black_scholes
    rw [if_neg hg1, if_neg hg2, hmax]
  · intro hv hv2 hT
    have hg1 : ¬(S ≤ 0 ∨ K ≤ 0 ∨ T ≤ 0 ∨ vol ≤ 0) := by
      push_neg
      exact ⟨hS, hK, hT, hv⟩
    have hg2 : ¬(S ≤ 0 ∨ K ≤ 0 ∨ T ≤ 0 ∨ (0.001 : ℝ) ≤ 0) := by
      push_neg
      exact ⟨hS, hK, hT, by norm_num⟩
    have hmax : max vol 0.001 = max (0.001 : ℝ) 0.001 := by
      rw [max_eq_right hv2, max_self]
    unfold black_scholes
    rw [if_neg hg1, if_neg hg2, hmax]
  · intro hT hv
    have hgate : ¬(S ≤ 0 ∨ K ≤ 0 ∨ T ≤ 0 ∨ vol ≤ 0) := by
      push_neg
      exact ⟨hS, hK, hT, hv⟩
    rw [black_scholes_call_eq S K r T q vol hgate, black_scholes_put_eq S K r T q vol hgate]
    exact ⟨rfl, rfl⟩

theorem black_scholes_gate_before_floors_witness :
    (0 : ℝ) < 1 ∧ (0 : ℝ) < 1 / 730 ∧ (1 / 730 : ℝ) ≤ 1 / 365 ∧
      black_scholes 1 1 0 (1 / 730) 0 1 "call" = black_scholes 1 1 0 (1 / 365) 0 1 "call" :=
  ⟨by norm_num, by norm_num, by norm_num,
    (black_scholes_gate_before_floors 1 1 0 (1 / 730) 0 1 "call" (by norm_num)
      (by norm_num)).1 (by norm_num) (by norm_num) (by norm_num)⟩

/-- C10: an input passing the numeric gate but whose option_type is neither
"call" nor "put" makes the function return none rather than a Greeks
result; the internally raised ValueError is caught by the function's own
handler and never escapes. -/
theorem black_scholes_invalid_option_type (S K r T q vol : ℝ) (ot : String)
    (hS : 0 < S) (hK : 0 < K) (hT : 0 < T) (hv : 0 < vol)
    (hc : ot ≠ "call") (hp : ot ≠ "put") :
    black_scholes S K r T q vol ot = none := by
  have hgate : ¬(S ≤ 0 ∨ K ≤ 0 ∨ T ≤ 0 ∨ vol ≤ 0) := by
    push_neg
    exact ⟨hS, hK, hT, hv⟩
  unfold black_scholes
  rw [if_neg hgate]
  simp only [if_neg hc, if_neg hp]

theorem black_scholes_invalid_option_type_witness :
    (0 : ℝ) < 1 ∧ ("straddle" : String) ≠ "call" ∧ ("straddle" : String) ≠ "put" ∧
      black_scholes 1 1 0 1 0 1 "straddle" = none :=
  ⟨by norm_num, by decide, by decide,
    black_scholes_invalid_option_type 1 1 0 1 0 1 "straddle" (by norm_num) (by norm_num)
      (by norm_num) (by norm_num) (by decide) (by decide)⟩

/-! Claim theorems for the mispricing step, expiry normalization and ATM
selection. -/

/-- C3 counterexample: at modelPrice = 0 and marketPrice = 5 the source's
mispricing step still produces a value (the division is executed
unconditionally), so it differs from the spec's evaluator, which returns
Undefined there.  This refutes the claim that the code returns Undefined
without dividing. -/
theorem mispricing_zero_not_undefined : mispricingRun 0 5 ≠ evaluateSpec 0 5 := by
  simp [mispricingRun, evaluateSpec]

/-- C3 amended: the source's mispricing step has no Undefined guard and
divides unconditionally, producing a value even at modelPrice = 0; for
nonzero modelPrice the value is (marketPrice - modelPrice) / modelPrice *
100, and evaluate(modelPrice = 10, marketPrice = 11) is 10 percent. -/
theorem mispricing_unguarded_formula (model market : ℝ) (h : model ≠ 0) :
    mispricingRun model market = evaluateSpec model market ∧
    mispricingRun 0 market = some (mispricing market 0) ∧
    mispricing 11 10 = 10 := by
  refine ⟨?_, rfl, by norm_num [mispricing]⟩
  rw [evaluateSpec, if_neg h]
  rfl

theorem mispricing_unguarded_formula_witness :
    (10 : ℝ) ≠ 0 ∧
      (mispricingRun 10 11 = evaluateSpec 10 11 ∧
        mispricingRun 0 11 = some (mispricing 11 0) ∧
        mispricing 11 10 = 10) :=
  ⟨by norm_num, mispricing_unguarded_formula 10 11 (by norm_num)⟩

/-- C6: expiry normalization returns the floor 1/365 together with the
warning signal when the whole-day difference is ≤ 0, and otherwise
daysToExpiry / 365 with no warning; in particular 10 days yield 10/365. -/
theorem normalizeExpiry_spec (d : Int) :
    (d ≤ 0 → normalizeExpiry d = (1 / 365, true)) ∧
    (0 < d → normalizeExpiry d = ((d : ℝ) / 365, false)) ∧
    normalizeExpiry 10 = (10 / 365, false) := by
  refine ⟨fun h => ?_, fun h => ?_, ?_⟩
  · rw [normalizeExpiry, if_pos h]
  · rw [normalizeExpiry, if_neg (not_le.mpr h)]
  · rw [normalizeExpiry, if_neg (by norm_num)]
    norm_num

theorem normalizeExpiry_spec_witness :
    (0 : Int) ≤ 0 ∧ normalizeExpiry 0 = (1 / 365, true) :=
  ⟨le_refl 0, (normalizeExpiry_spec 0).1 (le_refl 0)⟩

/-- Invariant of Python's left-to-right min-by-key scan: the fold result
either is the seed, which no list element strictly beats, or it is the
first list element achieving the least distance, strictly beating the seed
and every element before it. -/
theorem foldl_minKeyStep_spec (spot : ℝ) :
    ∀ (l : List ℝ) (b : ℝ),
      (l.foldl (minKeyStep spot) b = b ∧ ∀ x ∈ l, |b - spot| ≤ |x - spot|) ∨
      (∃ l1 l2, l = l1 ++ l.foldl (minKeyStep spot) b :: l2 ∧
        |l.foldl (minKeyStep spot) b - spot| < |b - spot| ∧
        (∀ x ∈ l1, |l.foldl (minKeyStep spot) b - spot| < |x - spot|) ∧
        (∀ x ∈ l2, |l.foldl (minKeyStep spot) b - spot| ≤ |x - spot|)) := by
  intro l
  induction l with
  | nil =>
    intro b
    exact Or.inl ⟨rfl, by simp⟩
  | cons x xs ih =>
    intro b
    rw [List.foldl_cons]
    by_cases hx : |x - spot| < |b - spot|
    · rw [show minKeyStep spot b x = x from if_pos hx]
      rcases ih x with ⟨heq, hall⟩ | ⟨l1, l2, hsplit, hlt, h1, h2⟩
      · refine Or.inr ⟨[], xs, ?_, ?_, by simp, ?_⟩
        · rw [heq]
          simp
        · rw [heq]
          exact hx
        · intro y hy
          rw [heq]
          exact hall y hy
      · refine Or.inr ⟨x :: l1, l2, ?_, hlt.trans hx, ?_, h2⟩
        · rw [List.cons_append, ← hsplit]
        · intro y hy
          rcases List.mem_cons.mp hy with rfl | hy
          · exact hlt
          · exact h1 y hy
    · rw [show minKeyStep spot b x = b from if_neg hx]
      rcases ih b with ⟨heq, hall⟩ | ⟨l1, l2, hsplit, hlt, h1, h2⟩
      · refine Or.inl ⟨heq, ?_⟩
        intro y hy
        rcases List.mem_cons.mp hy with rfl | hy
        · exact not_lt.mp hx
        · exact hall y hy
      · refine Or.inr ⟨x :: l1, l2, ?_, hlt, ?_, h2⟩
        · rw [List.cons_append, ← hsplit]
        · intro y hy
          rcases List.mem_cons.mp hy with rfl | hy
          · exact hlt.trans_le (not_lt.mp hx)
          · exact h1 y hy

/-- C7: on any non-empty strike sequence the ATM selection returns a strike
minimizing the distance to spot, and that strike is the first minimizer in
the sequence's original order (everything before it lies strictly farther
from spot); the claim's two examples both select 100. -/
theorem atm_strike_stable_argmin :
    (∀ (strikes : List ℝ) (spot : ℝ), strikes ≠ [] →
      ∃ m, atm_strike strikes spot = Except.ok m ∧
        (∀ x ∈ strikes, |m - spot| ≤ |x - spot|) ∧
        ∃ l1 l2, strikes = l1 ++ m :: l2 ∧ ∀ x ∈ l1, |m - spot| < |x - spot|) ∧
    atm_strike [100, 105, 95] 101 = Except.ok 100 ∧
    atm_strike [100, 102] 101 = Except.ok 100 := by
  have e1 : |(105 : ℝ) - 101| = 4 := by
    rw [show (105 : ℝ) - 101 = 4 by norm_num, abs_of_pos]
    norm_num
  have e2 : |(100 : ℝ) - 101| = 1 := by
    rw [show (100 : ℝ) - 101 = -1 by norm_num, abs_neg, abs_one]
  have e3 : |(95 : ℝ) - 101| = 6 := by
    rw [show (95 : ℝ) - 101 = -6 by norm_num, abs_neg, abs_of_pos]
    norm_num
  have e4 : |(102 : ℝ) - 101| = 1 := by
    rw [show (102 : ℝ) - 101 = 1 by norm_num, abs_one]
  refine ⟨?_, ?_, ?_⟩
  · intro strikes spot hne
    match strikes, hne with
    | s :: rest, _ =>
      rcases foldl_minKeyStep_spec spot rest s with ⟨heq, hall⟩ | ⟨l1, l2, hsplit, hlt, h1, h2⟩
      · refine ⟨rest.foldl (minKeyStep spot) s, rfl, ?_, [], rest, ?_, by simp⟩
        · intro y hy
          rw [heq]
          rcases List.mem_cons.mp hy with rfl | hy
          · exact le_refl _
          · exact hall y hy
        · rw [heq]
          simp
      · refine ⟨rest.foldl (minKeyStep spot) s, rfl, ?_, s :: l1, l2, ?_, ?_⟩
        · intro y hy
          rcases List.mem_cons.mp hy with rfl | hy
          · exact hlt.le
          · rw [hsplit] at hy
            rcases List.mem_append.mp hy with hy | hy
            · exact (h1 y hy).le
            · rcases List.mem_cons.mp hy with rfl | hy
              · exact le_refl _
              · exact h2 y hy
        · rw [List.cons_append, ← hsplit]
        · intro y hy
          rcases List.mem_cons.mp hy with rfl | hy
          · exact hlt
          · exact h1 y hy
  · norm_num [atm_strike, minKeyStep, e1, e2, e3]
  · norm_num [atm_strike, minKeyStep, e4, e2]

theorem atm_strike_stable_argmin_witness :
    ([100, 105, 95] : List ℝ) ≠ [] ∧
      ∃ m, atm_strike [100, 105, 95] 101 = Except.ok m ∧
        (∀ x ∈ ([100, 105, 95] : List ℝ), |m - 101| ≤ |x - 101|) ∧
        ∃ l1 l2, ([100, 105, 95] : List ℝ) = l1 ++ m :: l2 ∧
          ∀ x ∈ l1, |m - 101| < |x - 101| :=
  ⟨by simp, atm_strike_stable_argmin.1 [100, 105, 95] 101 (by simp)⟩

/-- C8: on the empty strike sequence ATM selection produces the explicit
EmptyInput error value (the ValueError of Python's min, recovered by the
scripts' handler into an error outcome, never an uncaught fault). -/
theorem atm_strike_empty_input (spot : ℝ) :
    atm_strike [] spot = Except.error AtmError.EmptyInput := rfl
